import Mathlib

/-!
Shallow embedding of the steam_price_monitor plugin
(src/main.py and src/price_convert.py).

Python floats are modelled as rationals, `None`-able values as `Option`,
dictionaries as association lists preserving insertion order.  Python
`round` (one- and two-argument forms) rounds half to even, which
`rhe` reproduces over rationals; `fmtFixed2` reproduces the Python
format specifier `:.2f`.
-/

set_option autoImplicit false

namespace SteamPriceMonitor

/-- Round half to even, as the Python builtin `round(x)` behaves. -/
def rhe (q : ℚ) : ℤ :=
  if q - ⌊q⌋ < 1/2 then ⌊q⌋
  else if 1/2 < q - ⌊q⌋ then ⌊q⌋ + 1
  else if ⌊q⌋ % 2 = 0 then ⌊q⌋ else ⌊q⌋ + 1

theorem rhe_intCast (n : ℤ) : rhe (n : ℚ) = n := by
  simp [rhe]

/-- Python `round(x, 2)`: round half to even at two decimal places. -/
def pyround2 (q : ℚ) : ℚ := (rhe (q * 100) : ℚ) / 100

/-- Render a natural number of cents as an amount with two decimals. -/
def centsRender (a : ℕ) : String :=
  toString (a / 100) ++ "." ++ (if a % 100 < 10 then "0" else "") ++ toString (a % 100)

/-- Python format specifier `:.2f` applied to a rational. -/
def fmtFixed2 (q : ℚ) : String :=
  if q < 0 then "-" ++ centsRender (rhe (-q * 100)).toNat
  else centsRender (rhe (q * 100)).toNat

theorem fmtFixed2_natCast (n : ℕ) : fmtFixed2 (n : ℚ) = centsRender (n * 100) := by
  have h100 : ((n : ℚ)) * 100 = ((((n * 100 : ℕ) : ℤ)) : ℚ) := by push_cast; ring
  have hneg : ¬ ((n : ℚ) < 0) := not_lt.mpr (Nat.cast_nonneg n)
  simp only [fmtFixed2, if_neg hneg, h100, rhe_intCast]
  congr 1

theorem fmtFixed2_neg_natCast (n : ℕ) (hn : 0 < n) :
    fmtFixed2 (-(n : ℚ)) = "-" ++ centsRender (n * 100) := by
  have h100 : (-(-((n : ℚ))) * 100) = ((((n * 100 : ℕ) : ℤ)) : ℚ) := by push_cast; ring
  have hneg : (-(n : ℚ) < 0) := by
    simpa using (by exact_mod_cast hn : (0 : ℚ) < n)
  simp only [fmtFixed2, if_pos hneg, h100, rhe_intCast]
  congr 2

/-- Python `str.upper()` restricted to the ASCII range, which covers
every key of the exchange-rate table. -/
def str_upper (s : String) : String := String.mk (s.data.map Char.toUpper)

/-!
## price_convert.py
-/

/-- The static exchange-rate table of `to_cny` (src/price_convert.py),
with the literal decimal constants read as exact rationals. -/
def exchange_rates : List (String × ℚ) :=
  [("CNY", 1),
   ("USD", 70905/10000),
   ("EUR", 81918/10000),
   ("GBP", 92742/10000),
   ("JPY", 45207/1000000),
   ("KRW", 4845/1000000),
   ("HKD", 91064/100000),
   ("TWD", 23/100),
   ("SGD", 54359/10000),
   ("CAD", 50575/10000),
   ("AUD", 46080/10000),
   ("CHF", 88168/10000),
   ("RUB", 88283/1000000),
   ("UAH", 1718/10000),
   ("BRL", 14/10),
   ("INR", 87/1000),
   ("MXN", 3869/10000),
   ("IDR", 48/100000)]

/-- First-match association lookup over a `List (String × β)`. -/
def lookupA {β : Type} (l : List (String × β)) (k : String) : Option β :=
  match l with
  | [] => none
  | p :: t => if p.1 = k then some p.2 else lookupA t k

/-- Function `to_cny` from src/price_convert.py: `None` propagation, uppercase
normalisation of the currency code, table lookup, `round(price*rate, 2)`. -/
def to_cny (price : Option ℚ) (currency : Option String) : Option ℚ :=
  match price, currency with
  | some p, some c =>
    match lookupA exchange_rates (str_upper c) with
    | some r => some (pyround2 (p * r))
    | none => none
  | _, _ => none

/-!
## percent_drop (src/main.py lines 436-447)

Python truthiness makes `regular and low` false when either is `None`
or zero, so the zero case falls through each guard.
-/

/-- Python truthiness of an optional float: `None` and `0` are falsy. -/
def pytruthy : Option ℚ → Bool
  | none => false
  | some x => x ≠ 0

/-- Function `percent_drop(now, low, regular)` from src/main.py: prefer the
regular-price basis, fall back to the live-price basis, else the
unknown token.  The guards are the Python conditions
`regular and low and regular > 0` and `now and low and now > 0`. -/
def percent_drop (now low regular : Option ℚ) : String :=
  if pytruthy regular && pytruthy low && decide (regular.getD 0 > 0) then
    "-" ++ toString (rhe ((1 - low.getD 0 / regular.getD 0) * 100)) ++ "%"
  else if pytruthy now && pytruthy low && decide (now.getD 0 > 0) then
    "-" ++ toString (rhe ((1 - low.getD 0 / now.getD 0) * 100)) ++ "%"
  else "未知"

example : percent_drop none (some 40) (some 100) = "-60%" := by
  have h : ((1:ℚ) - (some (40:ℚ)).getD 0 / (some (100:ℚ)).getD 0) * 100 = ((60:ℤ):ℚ) := by
    norm_num
  simp only [percent_drop, pytruthy, h, rhe_intCast]
  decide

example : percent_drop (some 50) (some 40) none = "-20%" := by
  have h : ((1:ℚ) - (some (40:ℚ)).getD 0 / (some (50:ℚ)).getD 0) * 100 = ((20:ℤ):ℚ) := by
    norm_num
  simp only [percent_drop, pytruthy, h, rhe_intCast]
  decide

example : percent_drop none none none = "未知" := by
  simp [percent_drop, pytruthy]

example : percent_drop none (some 0) (some 100) = "未知" := by
  simp [percent_drop, pytruthy]

example : to_cny (some 1) (some "usd") = some (709/100) := by
  have hup : str_upper "usd" = "USD" := by decide
  have hl : lookupA exchange_rates "USD" = some (70905/10000) := by
    simp [lookupA, exchange_rates]
  simp only [to_cny, hup, hl]
  norm_num [pyround2, rhe]

example : fmtFixed2 (-20) = "-20.00" := by
  rw [show (-20 : ℚ) = -((20:ℕ):ℚ) by norm_num, fmtFixed2_neg_natCast 20 (by norm_num)]
  decide

/-!
## The price-report pipeline of `_query_by_url` (src/main.py lines 261-573)

The network fetches are modelled by an environment record holding each
call site outcome; an exception at a call site is represented by the
same value the except-branch of the code produces.
-/

/-- The four values `_get_price_and_lowest` returns (src/main.py
lines 849-890): Steam deal price, history low, currency, regular price.
The all-`none` value covers both the no-deals case and the except branch. -/
structure ItadPrices where
  price : Option ℚ
  lowest : Option ℚ
  currency : Option String
  regular : Option ℚ
deriving DecidableEq, Repr

/-- Lines 381-398: when ITAD gave no home-region price, backfill only the
live price and its currency from the storefront detail fetch; the
history low and regular price are not touched. -/
def steam_cn_fallback (it : ItadPrices) (store : Option (ℚ × String)) : ItadPrices :=
  if it.price = none then
    match store with
    | some pc => { it with price := some pc.1, currency := some pc.2 }
    | none => it
  else it

/-- Function `fmt(price, currency)` (lines 467-471): currency symbol plus the
amount fixed to two decimals, or the unknown token. -/
def fmt (price : Option ℚ) (currency : Option String) : String :=
  match price, currency with
  | some p, some c =>
    (if c = "CNY" then "￥" else if c = "UAH" then "₴" else if c = "USD" then "$"
     else c ++ " ") ++ fmtFixed2 p
  | _, _ => "未知"

/-- The price-difference block (lines 520-528): computed only when both
CNY amounts are present and the comparison amount is positive; a negative
difference renders the home-cheaper message. -/
def price_diff_str (cn_cny compare_cny : Option ℚ) : String :=
  match cn_cny, compare_cny with
  | some cn, some cmp =>
    if cmp > 0 then
      if cn - cmp < 0 then
        "国区更便宜喵！便宜" ++ fmtFixed2 |cn - cmp| ++ "元呢！ (" ++
          fmtFixed2 ((cn - cmp) / cmp * 100) ++ "%)"
      else
        "国区更贵喵，多花" ++ fmtFixed2 (cn - cmp) ++ "元呢！ (+" ++
          fmtFixed2 ((cn - cmp) / cmp * 100) ++ "%)"
    else "无法获取当前价差"
  | _, _ => "无法获取当前价差"

/-- Outcomes of the network call sites of `_query_by_url`, in source
order.  `gid = none` covers both `found=false` and the except branch of
`fetch_itad_lookup`; `steam_cn_store = none` covers every path of the
fallback fetch that leaves the price unset. -/
structure FetchEnv where
  steam_name : Option String
  steam_image : Option String
  gid : Option String
  compare_price : Option ℚ
  compare_currency : Option String
  compare_discount_percent : ℤ
  itad : ItadPrices
  steam_cn_store : Option (ℚ × String)
  cn_discount_percent : Option ℤ
deriving DecidableEq, Repr

/-- The merged price report assembled by `_query_by_url`. -/
structure Report where
  cn_price : Option ℚ
  cn_currency : Option String
  cn_lowest : Option ℚ
  regular : Option ℚ
  shidi_percent : String
  cn_price_str : String
  compare_price_str : String
  price_diff : String
deriving DecidableEq, Repr

/-- Lines 374-528 after the gid check: ITAD prices, storefront fallback,
CNY conversion, discount strings, comparison string and price difference
(the final assignments of lines 509-528 override the earlier ones). -/
def buildReport (env : FetchEnv) (compare_region : String) : Report :=
  let it := steam_cn_fallback env.itad env.steam_cn_store
  let cn_cny := to_cny it.price it.currency
  let cn_discount := match env.cn_discount_percent with
    | some d => if d > 0 then "-" ++ toString d ++ "%" else ""
    | none => ""
  let cn_price_str := fmt it.price it.currency ++
    (if cn_discount = "" then "" else " " ++ cn_discount)
  if str_upper compare_region = "NONE" then
    { cn_price := it.price, cn_currency := it.currency, cn_lowest := it.lowest,
      regular := it.regular,
      shidi_percent := percent_drop it.price it.lowest it.regular,
      cn_price_str := cn_price_str,
      compare_price_str := "(未进行对比)", price_diff := "" }
  else
    let compare_cny := to_cny env.compare_price env.compare_currency
    let s0 := fmt env.compare_price env.compare_currency
    let s1 := if env.compare_discount_percent > 0 then
        s0 ++ " -" ++ toString env.compare_discount_percent ++ "%" else s0
    let s2 := match compare_cny with
      | some c => if c > 0 then s1 ++ " （￥" ++ fmtFixed2 c ++ "）" else s1
      | none => s1
    { cn_price := it.price, cn_currency := it.currency, cn_lowest := it.lowest,
      regular := it.regular,
      shidi_percent := percent_drop it.price it.lowest it.regular,
      cn_price_str := cn_price_str,
      compare_price_str := s2,
      price_diff := price_diff_str cn_cny compare_cny }

/-- Behaviour of `_query_by_url` after appid extraction: the concurrent fetches join,
and a missing catalog id is a hard stop (lines 347-349) before any price
report is assembled. -/
def query_by_url (env : FetchEnv) (compare_region : String) : Except String Report :=
  match env.gid with
  | none => .error "未找到该游戏的 isthereanydeal id \n（试一下换个名称搜索一下）。"
  | some _ => .ok (buildReport env compare_region)

/-!
## Association-list operations for the persisted dictionaries

`setA` is Python dict assignment: update in place when the key exists
(insertion order preserved), append at the end otherwise.  `deleteA`
is `del d[k]`.
-/

/-- Python `d[k] = v`. -/
def setA {β : Type} (l : List (String × β)) (k : String) (v : β) : List (String × β) :=
  if (lookupA l k).isSome then l.map (fun p => if p.1 = k then (k, v) else p)
  else l ++ [(k, v)]

/-- Python `del d[k]`. -/
def deleteA {β : Type} (l : List (String × β)) (k : String) : List (String × β) :=
  l.filter (fun p => p.1 != k)

/-!
## MonitorStore (src/main.py lines 1474-1557)
-/

/-- One value of the persisted `monitor_list` mapping. -/
structure MEntry where
  name : String
  subscribers : List String
  last_price : Option ℚ
  original_price : Option ℚ
  discount : Option ℤ
deriving DecidableEq, Repr

/-- Result of a subscribe/unsubscribe command: the mapping afterwards,
the reply text, and how many times the list was flushed to disk. -/
structure StoreResult where
  store : List (String × MEntry)
  message : String
  saves : ℕ
deriving DecidableEq, Repr

/-- The mutation part of `price_monitor_command` (lines 1474-1494), after
the appid and display name are resolved. -/
def subscribe (store : List (String × MEntry)) (appid game_name origin : String) :
    StoreResult :=
  match lookupA store appid with
  | none =>
    { store := store ++ [(appid,
        { name := game_name, subscribers := [origin],
          last_price := none, original_price := none, discount := none })],
      message := "✅ 已成功订阅游戏《" ++ game_name ++ "》的价格监控！\n当价格变动时，我会及时通知您。",
      saves := 1 }
  | some e =>
    if origin ∈ e.subscribers then
      { store := store, message := "⚠️ 您已经订阅了游戏《" ++ game_name ++ "》的价格监控。",
        saves := 0 }
    else
      { store := setA store appid { e with subscribers := e.subscribers ++ [origin] },
        message := "✅ 已成功订阅游戏《" ++ game_name ++ "》的价格监控！", saves := 1 }

/-- The mutation part of `cancel_monitor_command` (lines 1541-1557), once
the match phase has selected a single `(appid, e)` pair from the mapping.
Python `list.remove` drops the first occurrence, as `List.erase` does. -/
def cancel_unsub (store : List (String × MEntry)) (appid : String) (e : MEntry)
    (origin : String) : StoreResult :=
  if origin ∈ e.subscribers then
    let subs := e.subscribers.erase origin
    if subs ≠ [] then
      { store := setA store appid { e with subscribers := subs },
        message := "✅ 已取消对游戏《" ++ e.name ++ "》的价格监控订阅。", saves := 1 }
    else
      { store := deleteA store appid,
        message := "✅ 已取消对游戏《" ++ e.name ++ "》的价格监控订阅。", saves := 1 }
  else
    { store := store, message := "⚠️ 您尚未订阅游戏《" ++ e.name ++ "》的价格监控。",
      saves := 0 }

/-!
## MonitorScheduler (src/main.py lines 1194-1289)
-/

/-- What `get_steam_price_for_monitor` returns on success. -/
structure PriceData where
  is_free : Bool
  current_price : ℚ
  original_price : ℚ
  discount : ℤ
  currency : String
  name : String
deriving DecidableEq, Repr

/-- The notification text of `send_price_change_notification`
(lines 1253-1264), built from the previous price of the entry and the fresh
price data. -/
def build_notification_message (appid : String) (last : ℚ) (d : PriceData) : String :=
  (if d.is_free then "🎉🎉🎉 游戏《" ++ d.name ++ "》已免费！"
   else if d.current_price - last > 0 then
     "⬆️ 游戏《" ++ d.name ++ "》价格上涨：¥" ++ fmtFixed2 (d.current_price - last)
   else "⬇️ 游戏《" ++ d.name ++ "》价格下跌：¥" ++ fmtFixed2 (-(d.current_price - last))) ++
  "\n变动前价格：¥" ++ fmtFixed2 last ++
  "\n当前价格：¥" ++ fmtFixed2 d.current_price ++
  "\n原价：¥" ++ fmtFixed2 d.original_price ++
  "\n折扣：" ++ toString d.discount ++ "%" ++
  "\n购买链接：https://store.steampowered.com/app/" ++ appid

/-- One loop iteration of `run_price_monitor` (lines 1204-1242) for the
entry of `appid`: returns the updated entry, the number of times the
monitor list was persisted, and the dispatched notifications as
(subscriber origin, message) pairs. -/
def monitor_step (appid : String) (e : MEntry) (pd : Option PriceData) :
    MEntry × ℕ × List (String × String) :=
  match pd with
  | none => (e, 0, [])
  | some d =>
    match e.last_price with
    | none =>
      ({ e with last_price := some d.current_price,
                original_price := some d.original_price,
                discount := some d.discount }, 1, [])
    | some last =>
      if d.current_price - last ≠ 0 then
        ({ e with last_price := some d.current_price,
                  original_price := some d.original_price,
                  discount := some d.discount }, 1,
         e.subscribers.map (fun o => (o, build_notification_message appid last d)))
      else (e, 0, [])

/-!
## PriceHistoryStore (src/main.py lines 892-931)
-/

/-- One sample of the persisted price-history sequence.  The guard of
`_record_price_history` keeps `current_price` non-`None` in every stored
sample, but the JSON field itself is nullable, so the model keeps the
`Option`. -/
structure PriceRecord where
  timestamp : ℕ
  current_price : Option ℚ
  currency : Option String
  lowest_price : Option ℚ
  cny_price : Option ℚ
deriving DecidableEq, Repr

/-- One value of the persisted `price_history` mapping. -/
structure HistEntry where
  game_name : String
  history : List PriceRecord
deriving DecidableEq, Repr

/-- Function `_record_price_history` (lines 892-931): skip when the current price
is unknown, create the entry on first use, append the sample, keep only
the 100 most recent samples. -/
def record_price_history (ph : List (String × HistEntry)) (appid game_name : String)
    (current_price : Option ℚ) (currency : Option String)
    (lowest_price cny_price : Option ℚ) (timestamp : ℕ) : List (String × HistEntry) :=
  match current_price with
  | none => ph
  | some _ =>
    let r : PriceRecord :=
      { timestamp := timestamp, current_price := current_price, currency := currency,
        lowest_price := lowest_price, cny_price := cny_price }
    let entry : HistEntry := match lookupA ph appid with
      | none => { game_name := game_name, history := [] }
      | some e => e
    let h2 := entry.history ++ [r]
    let h3 := if h2.length > 100 then h2.drop (h2.length - 100) else h2
    setA ph appid { entry with history := h3 }

/-!
## Association-list lemmas
-/

theorem lookupA_map_set {β : Type} (l : List (String × β)) (k : String) (v : β) :
    lookupA (l.map (fun p => if p.1 = k then (k, v) else p)) k =
      if (lookupA l k).isSome then some v else none := by
  induction l with
  | nil => simp [lookupA]
  | cons p t ih =>
    by_cases hp : p.1 = k
    · simp [lookupA, hp]
    · simp [lookupA, hp, ih]

theorem lookupA_append_single {β : Type} (l : List (String × β)) (k : String) (v : β)
    (h : lookupA l k = none) : lookupA (l ++ [(k, v)]) k = some v := by
  induction l with
  | nil => simp [lookupA]
  | cons p t ih =>
    by_cases hp : p.1 = k
    · simp [lookupA, hp] at h
    · simp only [lookupA, hp, if_false, List.cons_append, if_neg hp] at h ⊢
      exact ih h

theorem lookupA_setA_self {β : Type} (l : List (String × β)) (k : String) (v : β) :
    lookupA (setA l k v) k = some v := by
  unfold setA
  by_cases h : (lookupA l k).isSome
  · rw [if_pos h, lookupA_map_set, if_pos h]
  · rw [if_neg h]
    refine lookupA_append_single l k v ?_
    cases hl : lookupA l k with
    | none => rfl
    | some w => rw [hl] at h; simp at h

theorem mem_setA {β : Type} {l : List (String × β)} {k : String} {v : β}
    {p : String × β} (h : p ∈ setA l k v) : p ∈ l ∨ p = (k, v) := by
  unfold setA at h
  split at h
  · obtain ⟨q, hq, hpq⟩ := List.mem_map.mp h
    by_cases hqk : q.1 = k
    · right; rw [← hpq]; simp [hqk]
    · left; rw [← hpq]; simpa [hqk] using hq
  · rcases List.mem_append.mp h with h1 | h2
    · left; exact h1
    · right; simpa using h2

theorem mem_deleteA {β : Type} {l : List (String × β)} {k : String}
    {p : String × β} (h : p ∈ deleteA l k) : p ∈ l :=
  (List.mem_filter.mp h).1

theorem lookupA_deleteA_self {β : Type} (l : List (String × β)) (k : String) :
    lookupA (deleteA l k) k = none := by
  unfold deleteA
  induction l with
  | nil => rfl
  | cons p t ih =>
    by_cases hp : p.1 = k
    · simpa [List.filter_cons, hp] using ih
    · simp [List.filter_cons, hp, lookupA, ih]

theorem lookupA_mem {β : Type} {l : List (String × β)} {k : String} {v : β}
    (h : lookupA l k = some v) : (k, v) ∈ l := by
  induction l with
  | nil => simp [lookupA] at h
  | cons p t ih =>
    by_cases hp : p.1 = k
    · simp only [lookupA, if_pos hp, Option.some.injEq] at h
      exact List.mem_cons.mpr (Or.inl (Prod.ext hp.symm h.symm))
    · simp only [lookupA, if_neg hp] at h
      exact List.mem_cons.mpr (Or.inr (ih h))

/-!
## Claim C5 — to_cny
-/

theorem pyround2_eq_self {q : ℚ} (h : (q * 100).den = 1) : pyround2 q = q := by
  have h1 : (((q * 100).num : ℤ) : ℚ) = q * 100 := by
    have hd := Rat.num_div_den (q * 100)
    rwa [h, Nat.cast_one, div_one] at hd
  have h2 : rhe (q * 100) = (q * 100).num := by
    conv_lhs => rw [← h1]
    exact rhe_intCast _
  rw [pyround2, h2, h1]
  field_simp

/-- Claim C5 as stated is false on two points: the implementation
uppercases the currency code before the table lookup, so a lowercase
code that is not itself a table key still converts; and for "CNY" the
amount passes through `round(amount * 1.0, 2)`, so an amount with three
decimals is not returned unchanged. -/
theorem C5_to_cny_counterexample :
    lookupA exchange_rates "usd" = none ∧
    to_cny (some 1) (some "usd") = some (709/100) ∧
    to_cny (some (1239/1000)) (some "CNY") ≠ some (1239/1000) := by
  refine ⟨by simp [lookupA, exchange_rates], ?_, ?_⟩
  · have hup : str_upper "usd" = "USD" := by decide
    have hl : lookupA exchange_rates "USD" = some (70905/10000) := by
      simp [lookupA, exchange_rates]
    simp only [to_cny, hup, hl]
    norm_num [pyround2, rhe]
  · have hup : str_upper "CNY" = "CNY" := by decide
    have hl : lookupA exchange_rates "CNY" = some 1 := by
      simp [lookupA, exchange_rates]
    simp only [to_cny, hup, hl]
    norm_num [pyround2, rhe]

/-- Claim C5 amended: `to_cny(amount, code)` is `None` iff the amount is
`None`, the code is `None`, or the uppercased code is not a key of the
table; otherwise it is `round(amount * rate[code.upper()], 2)`; for
"CNY" it is `round(amount, 2)`, which equals the amount whenever the
amount has at most two decimal places. -/
theorem C5_to_cny_amended :
    (∀ (p : Option ℚ) (c : Option String), to_cny p c = none ↔
      (p = none ∨ c = none ∨
        ∃ s, c = some s ∧ lookupA exchange_rates (str_upper s) = none))
    ∧ (∀ (q : ℚ) (s : String) (r : ℚ),
        lookupA exchange_rates (str_upper s) = some r →
        to_cny (some q) (some s) = some (pyround2 (q * r)))
    ∧ (∀ q : ℚ, to_cny (some q) (some "CNY") = some (pyround2 q))
    ∧ (∀ q : ℚ, (q * 100).den = 1 → to_cny (some q) (some "CNY") = some q) := by
  have hCNY : ∀ q : ℚ, to_cny (some q) (some "CNY") = some (pyround2 q) := by
    intro q
    have hup : str_upper "CNY" = "CNY" := by decide
    have hl : lookupA exchange_rates "CNY" = some 1 := by
      simp [lookupA, exchange_rates]
    simp [to_cny, hup, hl]
  refine ⟨?_, ?_, hCNY, ?_⟩
  · intro p c
    match p, c with
    | none, _ => simp [to_cny]
    | some q, none => simp [to_cny]
    | some q, some s =>
      cases hl : lookupA exchange_rates (str_upper s) with
      | none => simp [to_cny, hl]
      | some r => simp [to_cny, hl]
  · intro q s r h
    simp [to_cny, h]
  · intro q h
    rw [hCNY q, pyround2_eq_self h]

/-- Witness for the amended C5 at concrete inputs. -/
theorem C5_to_cny_amended_witness :
    to_cny (some 2) (some "usd") = some (pyround2 (2 * (70905/10000))) ∧
    to_cny (some 3) (some "CNY") = some 3 := by
  constructor
  · exact C5_to_cny_amended.2.1 2 "usd" (70905/10000)
      (by simp [lookupA, exchange_rates, show str_upper "usd" = "USD" from by decide])
  · exact C5_to_cny_amended.2.2.2 3 (by norm_num)

/-!
## Claim C2 — percent_drop
-/

/-- Claim C2 as stated is false: a known historical low of zero is a
known value, yet the Python guard `regular and low` treats `0` as falsy,
so `percent_drop` answers the unknown token instead of `-100%`. -/
theorem C2_percent_drop_counterexample :
    percent_drop none (some 0) (some 100) = "未知" ∧ ("未知" : String) ≠ "-100%" := by
  constructor
  · simp [percent_drop, pytruthy]
  · decide

/-- Claim C2 amended: the preference order holds for known **and
nonzero** inputs — if regular and low are known and nonzero with
regular > 0 the result renders `1 - low/regular`; else if now and low
are known and nonzero with now > 0 it renders `1 - low/now`; else the
unknown token; with the three concrete instances of the claim. -/
theorem C2_percent_drop_amended :
    (∀ (r l : ℚ) (now : Option ℚ), r ≠ 0 → l ≠ 0 → r > 0 →
       percent_drop now (some l) (some r) =
         "-" ++ toString (rhe ((1 - l / r) * 100)) ++ "%")
    ∧ (∀ (n l : ℚ) (regular : Option ℚ),
        ¬ (pytruthy regular = true ∧ regular.getD 0 > 0) →
        n ≠ 0 → l ≠ 0 → n > 0 →
        percent_drop (some n) (some l) regular =
          "-" ++ toString (rhe ((1 - l / n) * 100)) ++ "%")
    ∧ (∀ now low regular : Option ℚ,
        ¬ (pytruthy regular = true ∧ pytruthy low = true ∧ regular.getD 0 > 0) →
        ¬ (pytruthy now = true ∧ pytruthy low = true ∧ now.getD 0 > 0) →
        percent_drop now low regular = "未知")
    ∧ percent_drop none (some 40) (some 100) = "-60%"
    ∧ percent_drop (some 50) (some 40) none = "-20%"
    ∧ percent_drop none none none = "未知" := by
  refine ⟨?_, ?_, ?_, ?_, ?_, ?_⟩
  · intro r l now hr hl hr0
    simp [percent_drop, pytruthy, hr, hl, hr0]
  · intro n l regular h1 hn hl hn0
    have hc1 : (pytruthy regular && pytruthy (some l) &&
        decide (regular.getD 0 > 0)) = false := by
      cases hpr : pytruthy regular with
      | false => simp
      | true =>
        have hg : ¬ (regular.getD 0 > 0) := fun hg => h1 ⟨hpr, hg⟩
        simp [hg]
    simp only [percent_drop]
    rw [hc1]
    simp [pytruthy, hn, hl, hn0]
  · intro now low regular h1 h2
    have hc1 : (pytruthy regular && pytruthy low &&
        decide (regular.getD 0 > 0)) = false := by
      cases hpr : pytruthy regular with
      | false => simp
      | true =>
        cases hpl : pytruthy low with
        | false => simp
        | true =>
          have hg : ¬ (regular.getD 0 > 0) := fun hg => h1 ⟨hpr, hpl, hg⟩
          simp [hg]
    have hc2 : (pytruthy now && pytruthy low &&
        decide (now.getD 0 > 0)) = false := by
      cases hpn : pytruthy now with
      | false => simp
      | true =>
        cases hpl : pytruthy low with
        | false => simp
        | true =>
          have hg : ¬ (now.getD 0 > 0) := fun hg => h2 ⟨hpn, hpl, hg⟩
          simp [hg]
    simp only [percent_drop]
    rw [hc1, hc2]
    simp
  · have h : ((1:ℚ) - (some (40:ℚ)).getD 0 / (some (100:ℚ)).getD 0) * 100 = ((60:ℤ):ℚ) := by
      norm_num
    simp only [percent_drop, pytruthy, h, rhe_intCast]
    decide
  · have h : ((1:ℚ) - (some (40:ℚ)).getD 0 / (some (50:ℚ)).getD 0) * 100 = ((20:ℤ):ℚ) := by
      norm_num
    simp only [percent_drop, pytruthy, h, rhe_intCast]
    decide
  · simp [percent_drop, pytruthy]

/-- Witness for the amended C2 at a concrete input. -/
theorem C2_percent_drop_amended_witness :
    percent_drop none (some 40) (some 100) =
      "-" ++ toString (rhe ((1 - (40:ℚ) / 100) * 100)) ++ "%" :=
  C2_percent_drop_amended.1 100 40 none (by decide) (by decide) (by decide)

/-!
## Claim C1 — missing catalog id is a hard stop
-/

/-- Claim C1: when the catalog lookup-by-appid reported `found=false` or
failed (`gid = none`), `_query_by_url` answers the fixed no-catalog-mapping
message and stops; no report — in particular no historical-low value —
is produced, whatever the storefront detail fetch returned. -/
theorem C1_no_catalog_mapping_hard_stop (env : FetchEnv) (region : String)
    (h : env.gid = none) :
    query_by_url env region =
      .error "未找到该游戏的 isthereanydeal id \n（试一下换个名称搜索一下）。" ∧
    ∀ r : Report, query_by_url env region ≠ .ok r := by
  constructor
  · simp [query_by_url, h]
  · intro r hr
    rw [query_by_url, h] at hr
    exact Except.noConfusion hr

/-- A concrete environment where the storefront detail fetch succeeded
but the catalog lookup found nothing. -/
def envC1 : FetchEnv :=
  { steam_name := some "Half-Life 3", steam_image := some "img",
    gid := none,
    compare_price := some 10, compare_currency := some "UAH",
    compare_discount_percent := 0,
    itad := { price := some 5, lowest := some 1, currency := some "CNY",
              regular := some 10 },
    steam_cn_store := some (5, "CNY"), cn_discount_percent := none }

/-- Witness for C1 at a concrete environment. -/
theorem C1_no_catalog_mapping_hard_stop_witness :
    query_by_url envC1 "UA" =
      .error "未找到该游戏的 isthereanydeal id \n（试一下换个名称搜索一下）。" ∧
    ∀ r : Report, query_by_url envC1 "UA" ≠ .ok r :=
  C1_no_catalog_mapping_hard_stop envC1 "UA" rfl

/-!
## Claim C3 — the home-vs-comparison price difference
-/

theorem fmtFixed2_eval_20 : fmtFixed2 20 = "20.00" := by
  rw [show (20:ℚ) = ((20:ℕ):ℚ) by norm_num, fmtFixed2_natCast]
  decide

theorem fmtFixed2_eval_25 : fmtFixed2 25 = "25.00" := by
  rw [show (25:ℚ) = ((25:ℕ):ℚ) by norm_num, fmtFixed2_natCast]
  decide

theorem fmtFixed2_eval_neg20 : fmtFixed2 (-20) = "-20.00" := by
  rw [show (-20:ℚ) = -((20:ℕ):ℚ) by norm_num, fmtFixed2_neg_natCast 20 (by norm_num)]
  decide

/-- Claim C3: the difference is computed only when both CNY amounts are
known and the comparison amount is positive, otherwise the
cannot-compute message; a negative difference yields the home-cheaper
message and otherwise the home-more-expensive message; with the two
concrete instances of the claim (the 20.00 magnitude appears as a
positive number after the cheaper label). -/
theorem C3_price_difference (cn cmp : Option ℚ) (a b : ℚ) :
    ((cn = none ∨ cmp = none ∨ ∃ v, cmp = some v ∧ ¬ v > 0) →
      price_diff_str cn cmp = "无法获取当前价差")
    ∧ (b > 0 → a - b < 0 →
        price_diff_str (some a) (some b) =
          "国区更便宜喵！便宜" ++ fmtFixed2 |a - b| ++ "元呢！ (" ++
            fmtFixed2 ((a - b) / b * 100) ++ "%)")
    ∧ (b > 0 → ¬ (a - b < 0) →
        price_diff_str (some a) (some b) =
          "国区更贵喵，多花" ++ fmtFixed2 (a - b) ++ "元呢！ (+" ++
            fmtFixed2 ((a - b) / b * 100) ++ "%)")
    ∧ price_diff_str (some 100) (some 80) = "国区更贵喵，多花20.00元呢！ (+25.00%)"
    ∧ price_diff_str (some 80) (some 100) = "国区更便宜喵！便宜20.00元呢！ (-20.00%)" := by
  refine ⟨?_, ?_, ?_, ?_, ?_⟩
  · rintro (rfl | rfl | ⟨v, rfl, hv⟩)
    · cases cmp <;> rfl
    · cases cn <;> rfl
    · cases cn with
      | none => rfl
      | some x => simp [price_diff_str, hv]
  · intro hb hab
    simp [price_diff_str, hb, hab]
  · intro hb hab
    simp [price_diff_str, hb, hab]
  · have h1 : (100:ℚ) - 80 = 20 := by norm_num
    have h2 : ((100:ℚ) - 80) / 80 * 100 = 25 := by norm_num
    simp only [price_diff_str]
    rw [if_pos (by norm_num : (80:ℚ) > 0), if_neg (by norm_num : ¬ ((100:ℚ) - 80 < 0)),
      h2, h1, fmtFixed2_eval_20, fmtFixed2_eval_25]
    decide
  · have h1 : (80:ℚ) - 100 = -20 := by norm_num
    have h2 : |(80:ℚ) - 100| = 20 := by rw [h1]; norm_num
    have h3 : ((80:ℚ) - 100) / 100 * 100 = -20 := by norm_num
    simp only [price_diff_str]
    rw [if_pos (by norm_num : (100:ℚ) > 0), if_pos (by norm_num : (80:ℚ) - 100 < 0),
      h2, h3, fmtFixed2_eval_20, fmtFixed2_eval_neg20]
    decide

/-- Witness for C3 at concrete inputs. -/
theorem C3_price_difference_witness :
    price_diff_str (some 80) (some 100) =
      "国区更便宜喵！便宜" ++ fmtFixed2 |(80:ℚ) - 100| ++ "元呢！ (" ++
        fmtFixed2 (((80:ℚ) - 100) / 100 * 100) ++ "%)" ∧
    price_diff_str (some (10:ℚ)) none = "无法获取当前价差" :=
  ⟨(C3_price_difference (some 80) (some 100) 80 100).2.1
      (by norm_num) (by norm_num),
   (C3_price_difference (some (10:ℚ)) none 0 0).1 (Or.inr (Or.inl rfl))⟩

/-!
## Claim C4 — history low always sourced from the catalog
-/

theorem steam_cn_fallback_lowest (it : ItadPrices) (st : Option (ℚ × String)) :
    (steam_cn_fallback it st).lowest = it.lowest := by
  unfold steam_cn_fallback
  split
  · cases st <;> rfl
  · rfl

theorem steam_cn_fallback_regular (it : ItadPrices) (st : Option (ℚ × String)) :
    (steam_cn_fallback it st).regular = it.regular := by
  unfold steam_cn_fallback
  split
  · cases st <;> rfl
  · rfl

theorem buildReport_cn_fields (env : FetchEnv) (region : String) :
    (buildReport env region).cn_price =
        (steam_cn_fallback env.itad env.steam_cn_store).price ∧
    (buildReport env region).cn_currency =
        (steam_cn_fallback env.itad env.steam_cn_store).currency ∧
    (buildReport env region).cn_lowest =
        (steam_cn_fallback env.itad env.steam_cn_store).lowest ∧
    (buildReport env region).regular =
        (steam_cn_fallback env.itad env.steam_cn_store).regular := by
  unfold buildReport
  repeat' split
  all_goals simp

/-- Claim C4: in every report `_query_by_url` produces, the
historical-low (and regular-price) fields are exactly what the catalog
call produced — the storefront fallback can only fill the live price and
its currency, and only when the catalog gave no live price. -/
theorem C4_history_low_never_backfilled (env : FetchEnv) (region : String)
    (r : Report) (h : query_by_url env region = .ok r) :
    r.cn_lowest = env.itad.lowest ∧
    r.regular = env.itad.regular ∧
    (env.itad.price ≠ none →
      r.cn_price = env.itad.price ∧ r.cn_currency = env.itad.currency) ∧
    (env.itad.price = none → ∀ p c, env.steam_cn_store = some (p, c) →
      r.cn_price = some p ∧ r.cn_currency = some c) := by
  have hr : r = buildReport env region := by
    cases hg : env.gid with
    | none => rw [query_by_url, hg] at h; exact Except.noConfusion h
    | some g =>
      rw [query_by_url, hg] at h
      exact (Except.ok.inj h).symm
  subst hr
  obtain ⟨h1, h2, h3, h4⟩ := buildReport_cn_fields env region
  refine ⟨h3.trans (steam_cn_fallback_lowest _ _),
          h4.trans (steam_cn_fallback_regular _ _), ?_, ?_⟩
  · intro hp
    rw [h1, h2]
    unfold steam_cn_fallback
    rw [if_neg hp]
    exact ⟨rfl, rfl⟩
  · intro hp p c hst
    rw [h1, h2]
    unfold steam_cn_fallback
    rw [if_pos hp, hst]
    exact ⟨rfl, rfl⟩

/-- A concrete environment where the catalog produced no live price but
the storefront fallback succeeded, with a known history low. -/
def envC4 : FetchEnv :=
  { steam_name := some "Portal", steam_image := none,
    gid := some "g42",
    compare_price := some 10, compare_currency := some "UAH",
    compare_discount_percent := 0,
    itad := { price := none, lowest := some 7, currency := none,
              regular := some 19 },
    steam_cn_store := some (42, "CNY"), cn_discount_percent := none }

/-- Witness for C4 at a concrete environment. -/
theorem C4_history_low_never_backfilled_witness :
    (buildReport envC4 "UA").cn_lowest = envC4.itad.lowest ∧
    (buildReport envC4 "UA").cn_price = some 42 ∧
    (buildReport envC4 "UA").cn_currency = some "CNY" :=
  ⟨(C4_history_low_never_backfilled envC4 "UA" (buildReport envC4 "UA") rfl).1,
   ((C4_history_low_never_backfilled envC4 "UA" (buildReport envC4 "UA") rfl).2.2.2
      rfl 42 "CNY" rfl).1,
   ((C4_history_low_never_backfilled envC4 "UA" (buildReport envC4 "UA") rfl).2.2.2
      rfl 42 "CNY" rfl).2⟩

/-!
## Claim C6 — one monitor-sweep iteration
-/

/-- Claim C6: for one sweep iteration on an entry with fresh price data —
first-ever check records the baseline, persists once and notifies nobody;
an unchanged price neither notifies nor writes; a changed price persists
once and dispatches exactly one notification to every subscriber, the
free-game transition carrying the celebratory header instead of a numeric
delta. -/
theorem C6_monitor_step_behaviour (appid : String) (e : MEntry) (d : PriceData) :
    (e.last_price = none →
       monitor_step appid e (some d) =
         ({ e with last_price := some d.current_price,
                   original_price := some d.original_price,
                   discount := some d.discount }, 1, []))
    ∧ (∀ last, e.last_price = some last → d.current_price = last →
        monitor_step appid e (some d) = (e, 0, []))
    ∧ (∀ last, e.last_price = some last → d.current_price ≠ last →
        monitor_step appid e (some d) =
          ({ e with last_price := some d.current_price,
                    original_price := some d.original_price,
                    discount := some d.discount }, 1,
           e.subscribers.map (fun o => (o, build_notification_message appid last d)))
        ∧ (monitor_step appid e (some d)).2.2.length = e.subscribers.length
        ∧ (d.is_free = true → ∃ rest, build_notification_message appid last d =
             "🎉🎉🎉 游戏《" ++ d.name ++ "》已免费！" ++ rest)) := by
  refine ⟨?_, ?_, ?_⟩
  · intro h
    simp [monitor_step, h]
  · intro last hlast heq
    simp [monitor_step, hlast, heq]
  · intro last hlast hne
    have hstep : monitor_step appid e (some d) =
        ({ e with last_price := some d.current_price,
                  original_price := some d.original_price,
                  discount := some d.discount }, 1,
         e.subscribers.map (fun o => (o, build_notification_message appid last d))) := by
      simp [monitor_step, hlast, sub_ne_zero.mpr hne]
    refine ⟨hstep, ?_, ?_⟩
    · rw [hstep]
      simp
    · intro hfree
      refine ⟨"\n变动前价格：¥" ++ fmtFixed2 last ++ "\n当前价格：¥" ++
        fmtFixed2 d.current_price ++ "\n原价：¥" ++ fmtFixed2 d.original_price ++
        "\n折扣：" ++ toString d.discount ++ "%" ++
        "\n购买链接：https://store.steampowered.com/app/" ++ appid, ?_⟩
      unfold build_notification_message
      rw [if_pos hfree]
      simp only [String.append_assoc]

/-- A monitored entry with one subscriber and a recorded baseline. -/
def eC6 : MEntry :=
  { name := "Terraria", subscribers := ["aiocqhttp:FriendMessage:123"],
    last_price := some 10, original_price := some 36, discount := some 0 }

/-- Fresh price data for a free-game transition. -/
def dC6 : PriceData :=
  { is_free := true, current_price := 0, original_price := 0, discount := 100,
    currency := "FREE", name := "Terraria" }

/-- Witness for C6: a changed price on a one-subscriber entry yields one
write and one notification. -/
theorem C6_monitor_step_behaviour_witness :
    monitor_step "105600" eC6 (some dC6) =
      ({ eC6 with last_price := some dC6.current_price,
                  original_price := some dC6.original_price,
                  discount := some dC6.discount }, 1,
       eC6.subscribers.map
         (fun o => (o, build_notification_message "105600" 10 dC6))) ∧
    (monitor_step "105600" eC6 (some dC6)).2.2.length = eC6.subscribers.length :=
  ⟨((C6_monitor_step_behaviour "105600" eC6 dC6).2.2 10 rfl (by decide)).1,
   ((C6_monitor_step_behaviour "105600" eC6 dC6).2.2 10 rfl (by decide)).2.1⟩

/-!
## Claim C7 — subscribe is idempotent
-/

/-- Claim C7: re-subscribing an origin that is already in the subscriber list
of the entry leaves the store untouched (no write), answers the
already-subscribed message, and the entry keeps its subscriber list. -/
theorem C7_subscribe_idempotent (store : List (String × MEntry))
    (appid game_name origin : String) (e : MEntry)
    (hl : lookupA store appid = some e) (hm : origin ∈ e.subscribers) :
    (subscribe store appid game_name origin).store = store ∧
    (subscribe store appid game_name origin).message =
      "⚠️ 您已经订阅了游戏《" ++ game_name ++ "》的价格监控。" ∧
    (subscribe store appid game_name origin).saves = 0 ∧
    lookupA (subscribe store appid game_name origin).store appid = some e := by
  simp [subscribe, hl, hm]

/-- A monitored entry whose single subscriber re-subscribes. -/
def eC7 : MEntry :=
  { name := "CS2", subscribers := ["aiocqhttp:FriendMessage:1"],
    last_price := none, original_price := none, discount := none }

/-- Witness for C7 at a concrete store. -/
theorem C7_subscribe_idempotent_witness :
    (subscribe [("730", eC7)] "730" "CS2" "aiocqhttp:FriendMessage:1").store =
      [("730", eC7)] ∧
    (subscribe [("730", eC7)] "730" "CS2" "aiocqhttp:FriendMessage:1").saves = 0 :=
  ⟨(C7_subscribe_idempotent [("730", eC7)] "730" "CS2" "aiocqhttp:FriendMessage:1"
      eC7 rfl (by decide)).1,
   (C7_subscribe_idempotent [("730", eC7)] "730" "CS2" "aiocqhttp:FriendMessage:1"
      eC7 rfl (by decide)).2.2.1⟩

/-!
## Claim C8 — unsubscribing the last subscriber deletes the entry
-/

/-- Claim C8: removing the last remaining subscriber deletes the whole
entry from the mapping, and both subscribe and unsubscribe preserve the
invariant that every stored entry has a non-empty subscriber list. -/
theorem C8_unsubscribe_last_deletes (store : List (String × MEntry))
    (appid : String) (e : MEntry) (origin game_name : String)
    (hinv : ∀ p ∈ store, p.2.subscribers ≠ []) :
    (e.subscribers = [origin] →
       lookupA (cancel_unsub store appid e origin).store appid = none) ∧
    (∀ p ∈ (cancel_unsub store appid e origin).store, p.2.subscribers ≠ []) ∧
    (∀ p ∈ (subscribe store appid game_name origin).store, p.2.subscribers ≠ []) := by
  refine ⟨?_, ?_, ?_⟩
  · intro h
    simp [cancel_unsub, h, lookupA_deleteA_self]
  · intro p hp
    unfold cancel_unsub at hp
    by_cases hin : origin ∈ e.subscribers
    · rw [if_pos hin] at hp
      by_cases hne : e.subscribers.erase origin ≠ []
      · rw [if_pos hne] at hp
        rcases mem_setA hp with h1 | h1
        · exact hinv p h1
        · rw [h1]
          exact hne
      · rw [if_neg hne] at hp
        exact hinv p (mem_deleteA hp)
    · rw [if_neg hin] at hp
      exact hinv p hp
  · intro p hp
    unfold subscribe at hp
    cases hl : lookupA store appid with
    | none =>
      simp only [hl] at hp
      rcases List.mem_append.mp hp with h1 | h1
      · exact hinv p h1
      · rw [List.mem_singleton.mp h1]
        simp
    | some e2 =>
      simp only [hl] at hp
      by_cases hin : origin ∈ e2.subscribers
      · rw [if_pos hin] at hp
        exact hinv p hp
      · rw [if_neg hin] at hp
        rcases mem_setA hp with h1 | h1
        · exact hinv p h1
        · rw [h1]
          simp
/-- A monitored entry whose single subscriber cancels. -/
def eC8 : MEntry :=
  { name := "Portal 2", subscribers := ["aiocqhttp:GroupMessage:9_7"],
    last_price := some 10, original_price := some 20, discount := some 50 }

/-- Witness for C8 at a concrete store: the entry disappears. -/
theorem C8_unsubscribe_last_deletes_witness :
    lookupA (cancel_unsub [("620", eC8)] "620" eC8
      "aiocqhttp:GroupMessage:9_7").store "620" = none :=
  (C8_unsubscribe_last_deletes [("620", eC8)] "620" eC8
    "aiocqhttp:GroupMessage:9_7" "Portal 2" (by decide)).1 rfl

/-!
## Claim C9 — price history is a bounded FIFO of 100 samples
-/

/-- Length of the stored history of `appid`, zero when absent. -/
def histLenA (ph : List (String × HistEntry)) (appid : String) : ℕ :=
  match lookupA ph appid with
  | some e => e.history.length
  | none => 0

/-- Claim C9: appending a sample to a 100-sample history evicts the
oldest sample (index 0) and keeps the new sample last, with exactly 100
samples remaining; in general an append leaves `min (len + 1) 100`
samples, never more than 100. -/
theorem C9_history_bounded_fifo (ph : List (String × HistEntry))
    (appid game_name : String) (x : ℚ) (cur : Option String)
    (low cny : Option ℚ) (ts : ℕ) :
    (∀ e, lookupA ph appid = some e → e.history.length = 100 →
       lookupA (record_price_history ph appid game_name (some x) cur low cny ts)
           appid =
         some { game_name := e.game_name,
                history := e.history.drop 1 ++ [⟨ts, some x, cur, low, cny⟩] } ∧
       (e.history.drop 1 ++
          ([⟨ts, some x, cur, low, cny⟩] : List PriceRecord)).length = 100)
    ∧ (∀ e2, lookupA (record_price_history ph appid game_name (some x) cur low cny ts)
          appid = some e2 →
        e2.history.length = min (histLenA ph appid + 1) 100) := by
  constructor
  · intro e hl hlen
    have hcond : ((e.history ++
        ([⟨ts, some x, cur, low, cny⟩] : List PriceRecord)).length > 100) := by
      simp [hlen]
    have hdrop : (e.history ++
        ([⟨ts, some x, cur, low, cny⟩] : List PriceRecord)).tail =
        e.history.tail ++ [⟨ts, some x, cur, low, cny⟩] := by
      rw [← List.drop_one, ← List.drop_one, List.drop_append_eq_append_drop, hlen]
      simp
    constructor
    · simp only [record_price_history, hl, lookupA_setA_self]
      rw [if_pos hcond]
      simp only [List.length_append, hlen, List.length_cons, List.length_nil]
      norm_num
      exact hdrop
    · simp [hlen]
  · intro e2 h2
    cases hl : lookupA ph appid with
    | none =>
      simp only [record_price_history, hl, lookupA_setA_self] at h2
      have he2 := (Option.some.inj h2).symm
      rw [he2]
      simp [histLenA, hl]
    | some e =>
      simp only [record_price_history, hl, lookupA_setA_self] at h2
      have he2 := (Option.some.inj h2).symm
      rw [he2]
      simp only [histLenA, hl]
      by_cases hc : (e.history ++
          ([⟨ts, some x, cur, low, cny⟩] : List PriceRecord)).length > 100
      · rw [if_pos hc]
        simp only [List.length_drop, List.length_append, List.length_cons,
          List.length_nil] at hc ⊢
        omega
      · rw [if_neg hc]
        simp only [List.length_append, List.length_cons, List.length_nil] at hc ⊢
        omega

/-- A 100-sample history entry. -/
def eC9 : HistEntry :=
  { game_name := "Hades",
    history := List.replicate 100 ⟨1, some 48, some "CNY", some 24, some 48⟩ }

/-- Witness for C9: the 101st append keeps exactly 100 samples. -/
theorem C9_history_bounded_fifo_witness :
    lookupA (record_price_history [("1145360", eC9)] "1145360" "Hades"
        (some 24) (some "CNY") (some 24) (some 24) 9) "1145360" =
      some { game_name := eC9.game_name,
             history := eC9.history.drop 1 ++
               [⟨9, some 24, some "CNY", some 24, some 24⟩] } ∧
    (eC9.history.drop 1 ++
       ([⟨9, some 24, some "CNY", some 24, some 24⟩] : List PriceRecord)).length
      = 100 :=
  (C9_history_bounded_fifo [("1145360", eC9)] "1145360" "Hades" 24 (some "CNY")
    (some 24) (some 24) 9).1 eC9 rfl (by simp [eC9])

/-!
## Claim C10 — only known prices are recorded
-/

/-- Claim C10: with an unknown current price the recorder returns the
mapping untouched, and consequently every stored sample in every entry
keeps a known (non-`None`) current price, whatever the other fields are. -/
theorem C10_history_requires_known_price (ph : List (String × HistEntry))
    (appid game_name : String) (cur : Option String) (low cny : Option ℚ)
    (ts : ℕ) :
    record_price_history ph appid game_name none cur low cny ts = ph ∧
    (∀ cp : Option ℚ,
      (∀ p ∈ ph, ∀ s ∈ p.2.history, s.current_price ≠ none) →
      ∀ p ∈ record_price_history ph appid game_name cp cur low cny ts,
        ∀ s ∈ p.2.history, s.current_price ≠ none) := by
  constructor
  · rfl
  · intro cp hinv p hp s hs
    cases cp with
    | none => exact hinv p hp s hs
    | some x =>
      cases hl : lookupA ph appid with
      | none =>
        simp only [record_price_history, hl] at hp
        rcases mem_setA hp with h1 | h1
        · exact hinv p h1 s hs
        · rw [h1] at hs
          simp at hs
          rw [hs]
          simp
      | some e =>
        simp only [record_price_history, hl] at hp
        rcases mem_setA hp with h1 | h1
        · exact hinv p h1 s hs
        · rw [h1] at hs
          have hs2 : s ∈ e.history ++
              ([⟨ts, some x, cur, low, cny⟩] : List PriceRecord) := by
            by_cases hc : (e.history ++
                ([⟨ts, some x, cur, low, cny⟩] : List PriceRecord)).length > 100
            · rw [if_pos hc] at hs
              exact List.mem_of_mem_drop hs
            · rwa [if_neg hc] at hs
          rcases List.mem_append.mp hs2 with h2 | h2
          · exact hinv (appid, e) (lookupA_mem hl) s h2
          · rw [List.mem_singleton.mp h2]
            simp

/-- A one-entry history map whose single sample has a known price. -/
def phC10 : List (String × HistEntry) :=
  [("400", { game_name := "Portal",
             history := [⟨3, some 2, some "CNY", none, none⟩] })]

/-- Witness for C10: recording with an unknown price changes nothing, and
the invariant instance survives a recording with a known price. -/
theorem C10_history_requires_known_price_witness :
    record_price_history phC10 "400" "Portal" none none none none 5 = phC10 ∧
    (⟨5, some 7, some "CNY", none, none⟩ : PriceRecord).current_price ≠ none :=
  ⟨(C10_history_requires_known_price phC10 "400" "Portal" none none none 5).1,
   (C10_history_requires_known_price phC10 "400" "Portal" (some "CNY") none none 5).2
     (some 7) (by decide)
     ("400", { game_name := "Portal",
               history := [⟨3, some 2, some "CNY", none, none⟩,
                           ⟨5, some 7, some "CNY", none, none⟩] })
     (by decide)
     ⟨5, some 7, some "CNY", none, none⟩ (by decide)⟩

end SteamPriceMonitor
